import Mathlib

/-!
# Mock-Interviewer: verification of the interview state machine and AI gateway

A shallow embedding of the two core modules of the Mock-Interviewer
repository:

* `src/groq_ai_service.py` — the AI gateway (`GroqAIService`): question
  generation, answer evaluation and report generation wrapped around an
  external LLM capability, with deterministic fallbacks on failure.
* `src/interviewer.py` — the interview session (`ExcelMockInterviewer`):
  the three-phase state machine (introduction → questioning → conclusion),
  difficulty progression and answer/evaluation accumulation.

Python dictionaries produced by the JSON layer are modelled as association
lists of `Json` values; Python floats that carry scores are modelled as
rationals (all score constants in the source are exact decimals).  The
external LLM transport (the `groq` client, `json.loads` and the brace
extraction around it) is outside the repository; one call to it is
modelled by a `CapResult`: either a `failure` (a raised exception, no
`{...}` region in the reply, or text `json.loads` rejects — every path
that reaches the `except` clause) or a `success` carrying the parsed
JSON object (the extracted region starts with a brace, so a successful
parse is always an object).
-/

namespace MockInterview

/-- JSON values, modelling the results of Python's `json.loads`. -/
inductive Json where
  | null : Json
  | bool (b : Bool) : Json
  | num (q : ℚ) : Json
  | str (s : String) : Json
  | arr (elems : List Json) : Json

/-- A Python dict with string keys, as produced by parsing a JSON object. -/
abbrev JObj := List (String × Json)

/-- `d[k]` lookup on a dict: first binding for `k`, if any. -/
def getKey (d : JObj) (k : String) : Option Json :=
  match d with
  | [] => none
  | (k', v) :: rest => if k' = k then some v else getKey rest k

/-- Python `d[k] = v`: replace the binding in place, or append a new one. -/
def setKey (d : JObj) (k : String) (v : Json) : JObj :=
  match d with
  | [] => [(k, v)]
  | (k', v') :: rest =>
      if k' = k then (k, v) :: rest else (k', v') :: setKey rest k v

/-- Python `d.setdefault(k, v)`: insert `v` only when `k` is absent. -/
def setdefaultKey (d : JObj) (k : String) (v : Json) : JObj :=
  match getKey d k with
  | some _ => d
  | none => d ++ [(k, v)]

/-- Python `str.strip()` with no argument: remove leading and trailing
whitespace (modelled on the character list of the string). -/
def pyStrip (s : String) : String :=
  ⟨((s.data.dropWhile Char.isWhitespace).reverse.dropWhile Char.isWhitespace).reverse⟩

/-- Python `str.lower()` (ASCII model of Unicode case folding; every
string the source compares against is ASCII). -/
def pyLower (s : String) : String :=
  ⟨s.data.map Char.toLower⟩

/-- Outcome of one call to the external LLM capability, after the
transport and JSON-extraction layer (which is outside the repository):
either every path that lands in the `except`/no-JSON branch, or a
successfully parsed JSON object. -/
inductive CapResult where
  | failure : CapResult
  | success (payload : JObj) : CapResult

/-- The length-heuristic score of `_get_basic_evaluation`
(groq_ai_service.py:406): `5.0 if len(user_answer.strip()) > 20 else 3.0`. -/
def basicScore (userAnswer : String) : ℚ :=
  if 20 < (pyStrip userAnswer).length then 5 else 3

/-- `GroqAIService._get_basic_evaluation` (groq_ai_service.py:404-416):
length-heuristic fallback evaluation. -/
def basicEvaluation (userAnswer : String) : JObj :=
  let score : ℚ := basicScore userAnswer
  [ ("correctness_score", Json.num score)
  , ("efficiency_score", Json.num score)
  , ("clarity_score", Json.num score)
  , ("overall_score", Json.num score)
  , ("feedback", Json.str "Thank you for your response.")
  , ("strengths", Json.arr [])
  , ("areas_for_improvement", Json.arr [Json.str "Provide more detailed explanations"])
  , ("recommendation", Json.str "Practice explaining Excel solutions step-by-step.")
  ]

/-- `GroqAIService.evaluate_answer` (groq_ai_service.py:164-235): on a
parsed payload, fill the missing fields with defaults via `setdefault`;
on any failure, fall back to the length heuristic.  The question argument
only feeds the prompt of the external call, so it does not appear here. -/
def evaluate_answer (res : CapResult) (userAnswer : String) : JObj :=
  match res with
  | .failure => basicEvaluation userAnswer
  | .success evaluation =>
      let e1 := setdefaultKey evaluation "correctness_score" (Json.num 5)
      let e2 := setdefaultKey e1 "efficiency_score" (Json.num 5)
      let e3 := setdefaultKey e2 "clarity_score" (Json.num 5)
      let e4 := setdefaultKey e3 "overall_score" (Json.num 5)
      let e5 := setdefaultKey e4 "feedback" (Json.str "Thank you for your response.")
      let e6 := setdefaultKey e5 "strengths" (Json.arr [])
      let e7 := setdefaultKey e6 "areas_for_improvement" (Json.arr [])
      setdefaultKey e7 "recommendation" (Json.str "Continue practicing Excel skills.")

/-- The static fallback question bank of
`GroqAIService._get_fallback_question` (groq_ai_service.py:370-396). -/
def fallback_questions : List (String × JObj) :=
  [ ("intermediate",
      [ ("question", Json.str "You have a sales dataset with Product_ID in column A and Sales_Amount in column B. How would you calculate the total sales for Product_ID 'PROD001'?")
      , ("ideal_solution", Json.str "=SUMIF(A:A,\"PROD001\",B:B)")
      , ("explanation", Json.str "SUMIF function sums values based on criteria")
      , ("key_concepts", Json.arr [Json.str "SUMIF", Json.str "criteria-based calculations"])
      , ("alternatives", Json.arr [Json.str "SUMIFS", Json.str "PivotTable"])
      ])
  , ("intermediate_advanced",
      [ ("question", Json.str "You need to create a dynamic range that automatically expands when new data is added. How would you accomplish this?")
      , ("ideal_solution", Json.str "=OFFSET($A$1,0,0,COUNTA($A:$A),1) or Excel Tables")
      , ("explanation", Json.str "OFFSET with COUNTA creates dynamic ranges")
      , ("key_concepts", Json.arr [Json.str "OFFSET", Json.str "COUNTA", Json.str "dynamic ranges"])
      , ("alternatives", Json.arr [Json.str "Excel Tables", Json.str "INDIRECT"])
      ])
  , ("advanced",
      [ ("question", Json.str "You need to perform a lookup with multiple criteria. How would you find a value where Column A = 'Category1' AND Column B = 'Product1'?")
      , ("ideal_solution", Json.str "=INDEX(C:C,MATCH(1,(A:A=\"Category1\")*(B:B=\"Product1\"),0))")
      , ("explanation", Json.str "Array formula with multiple criteria matching")
      , ("key_concepts", Json.arr [Json.str "INDEX/MATCH", Json.str "array formulas", Json.str "multiple criteria"])
      , ("alternatives", Json.arr [Json.str "FILTER function", Json.str "Helper columns"])
      ])
  ]

/-- Association lookup into the fallback bank (Python `dict.get` with a
default), as in `fallback_questions.get(difficulty_level,
fallback_questions["intermediate"])`. -/
def bankGet (bank : List (String × JObj)) (k : String) (dflt : JObj) : JObj :=
  match bank with
  | [] => dflt
  | (k', v) :: rest => if k' = k then v else bankGet rest k dflt

/-- `GroqAIService._get_fallback_question` (groq_ai_service.py:370-396).
The `question_number` parameter of the source function is unused there. -/
def get_fallback_question (difficultyLevel : String) : JObj :=
  bankGet fallback_questions difficultyLevel
    (bankGet fallback_questions "intermediate" [])

/-- `GroqAIService.generate_question` (groq_ai_service.py:46-114): on a
parsed payload, attach the three metadata fields; on any failure, return
the static difficulty-appropriate fallback question. -/
def generate_question (difficultyLevel : String) (questionNumber : ℕ)
    (res : CapResult) : JObj :=
  match res with
  | .failure => get_fallback_question difficultyLevel
  | .success questionData =>
      let q1 := setKey questionData "generated_by" (Json.str "groq_ai")
      let q2 := setKey q1 "difficulty_level" (Json.str difficultyLevel)
      setKey q2 "question_number" (Json.num questionNumber)

/-- `question.get(key, '')` as used by the session on question dicts; all
question producers in the source put strings under these keys. -/
def pyGetStr (d : JObj) (k : String) : String :=
  match getKey d k with
  | some (Json.str s) => s
  | _ => ""

/-! ## The interview session state machine (`src/interviewer.py`)

The session calls its `ai_service` through four methods; the service is
modelled as a record of total functions (the source service absorbs every
upstream failure into a deterministic fallback, so each method always
returns a value — the fail-soft contract of the spec).  Question and
evaluation payloads flow through the session as dicts, exactly as in the
source. -/

/-- `InterviewPhase` (interviewer.py:13-17). -/
inductive InterviewPhase where
  | introduction
  | questioning
  | conclusion
  deriving DecidableEq, Repr

/-- `QuestionDifficulty` (interviewer.py:20-24). -/
inductive QuestionDifficulty where
  | intermediate
  | intermediate_advanced
  | advanced
  deriving DecidableEq, Repr

/-- The `.value` field of each `QuestionDifficulty` member. -/
def QuestionDifficulty.value : QuestionDifficulty → String
  | .intermediate => "intermediate"
  | .intermediate_advanced => "intermediate_advanced"
  | .advanced => "advanced"

/-- One entry of `conversation_history` (interviewer.py:149-153). -/
structure Turn where
  question : String
  answer : String
  questionNumber : ℕ
  deriving DecidableEq, Repr

/-- The four methods of the AI service the session calls
(`generate_question`, `conduct_interview_response`, `evaluate_answer`,
`generate_final_report`), as an injected total capability. -/
structure AIService where
  generateQuestion : String → ℕ → String → JObj
  conductInterviewResponse : String → JObj → List Turn → String
  evaluateAnswer : JObj → String → JObj
  generateFinalReport : List JObj → List String → List JObj → String

/-- The mutable fields of `ExcelMockInterviewer` (interviewer.py:37-46). -/
structure InterviewState where
  phase : InterviewPhase
  currentQuestionNumber : ℕ
  totalQuestions : ℕ
  userResponses : List String
  evaluations : List JObj
  questionsAsked : List JObj
  conversationHistory : List Turn
  isReady : Bool

/-- `ExcelMockInterviewer.__init__` (interviewer.py:37-46). -/
def initState (totalQuestions : ℕ) : InterviewState :=
  { phase := .introduction
  , currentQuestionNumber := 0
  , totalQuestions := totalQuestions
  , userResponses := []
  , evaluations := []
  , questionsAsked := []
  , conversationHistory := []
  , isReady := false }

/-- Which gateway method a session step invoked, in call order; used to
state that a step requested no further question or produced no report. -/
inductive GatewayCall where
  | generateQuestionCall
  | evaluateAnswerCall
  | feedbackCall
  | reportCall
  deriving DecidableEq, Repr

/-- Result of one public session call: the successor state, the returned
user-facing text, and the trace of gateway calls made. -/
structure StepOut where
  state : InterviewState
  output : String
  calls : List GatewayCall

/-- Python `s[:n]` on a string. -/
def pyTake (s : String) (n : ℕ) : String :=
  ⟨s.data.take n⟩

/-- Python `l[-2:]`: the last two elements. -/
def lastTwo (l : List α) : List α :=
  l.drop (l.length - 2)

/-- Python `str.replace(old, new)` for single characters. -/
def pyReplaceChar (s : String) (old nw : Char) : String :=
  ⟨s.data.map (fun c => if c = old then nw else c)⟩

/-- Helper for `pyTitle`: the flag records whether the previous character
was alphabetic (a cased letter starts a new word exactly when it is not
preceded by one). -/
def pyTitleAux : Bool → List Char → List Char
  | _, [] => []
  | prevAlpha, c :: cs =>
      let c' := if c.isAlpha then (if prevAlpha then c.toLower else c.toUpper) else c
      c' :: pyTitleAux c.isAlpha cs

/-- Python `str.title()` (ASCII model). -/
def pyTitle (s : String) : String :=
  ⟨pyTitleAux false s.data⟩

/-- Difficulty selection of `_ask_next_question` (interviewer.py:186-223)
as a function of `total_questions` and the (1-based) question number. -/
def difficultyForQuestion (total n : ℕ) : QuestionDifficulty :=
  if total = 3 then
    if n = 1 then .intermediate
    else if n = 2 then .intermediate_advanced
    else .advanced
  else if total = 4 then
    if n = 1 then .intermediate
    else if n = 2 then .intermediate
    else if n = 3 then .intermediate_advanced
    else .advanced
  else if total = 5 then
    if n = 1 then .intermediate
    else if n = 2 then .intermediate
    else if n = 3 ∨ n = 4 then .intermediate_advanced
    else .advanced
  else
    -- third = self.total_questions // 3
    let third := total / 3
    if n ≤ third then .intermediate
    else if n ≤ 2 * third then .intermediate_advanced
    else .advanced

/-- `_ask_next_question` (interviewer.py:182-240): bump the question
number, derive the difficulty, build the two-turn context string, request
a question from the service, record it, and render the question banner. -/
def ask_next_question (svc : AIService) (s : InterviewState) :
    InterviewState × String :=
  let n := s.currentQuestionNumber + 1
  let difficulty := difficultyForQuestion s.totalQuestions n
  let context :=
    if s.conversationHistory.isEmpty then ""
    else
      let prevTopics := (lastTwo s.conversationHistory).map (fun item => pyTake item.question 100)
      "Previous questions covered: " ++ String.intercalate "; " prevTopics
  let question := svc.generateQuestion difficulty.value n context
  ( { s with currentQuestionNumber := n
           , questionsAsked := s.questionsAsked ++ [question] }
  , "**Question " ++ toString n ++ " (" ++
      pyTitle (pyReplaceChar difficulty.value '_' '/') ++ "):**\n\n" ++
      pyGetStr question "question" )

/-- Python `needle in haystack` on strings: substring containment,
checked at every starting position. -/
def containsSub (needle : List Char) : List Char → Bool
  | [] => needle.isEmpty
  | c :: rest => needle.isPrefixOf (c :: rest) || containsSub needle rest

/-- The `ready_indicators` list (interviewer.py:129). -/
def ready_indicators : List String :=
  ["ready", "yes", "y", "start", "begin", "go", "sure", "ok", "okay"]

/-- `any(indicator in user_input for indicator in ready_indicators)`:
substring containment of some indicator in the normalized input. -/
def containsReadyIndicator (userInput : String) : Bool :=
  ready_indicators.any (fun indicator => containsSub indicator.data userInput.data)

/-- `_handle_introduction_phase` (interviewer.py:127-136). -/
def handle_introduction_phase (svc : AIService) (s : InterviewState)
    (userInput : String) : StepOut :=
  if containsReadyIndicator userInput then
    let s1 := { s with isReady := true, phase := .questioning }
    let r := ask_next_question svc s1
    ⟨r.1, r.2, [.generateQuestionCall]⟩
  else
    ⟨s, "I understand you might need a moment. When you're ready to begin the Excel proficiency assessment, just let me know by typing 'ready' or 'yes'.", []⟩

/-- `_handle_questioning_phase` (interviewer.py:138-171): record the
answer and a conversation turn, evaluate, fetch feedback, then either ask
the next question or transition to the conclusion phase.  The source
reads `questions_asked[current_question_number - 1]`, in range in every
reachable questioning state; out of range the model returns the empty
dict where Python would raise `IndexError`. -/
def handle_questioning_phase (svc : AIService) (s : InterviewState)
    (userInput : String) : StepOut :=
  if s.currentQuestionNumber = 0 then
    -- "This shouldn't happen, but handle gracefully"
    let r := ask_next_question svc s
    ⟨r.1, r.2, [.generateQuestionCall]⟩
  else
    let currentQuestion := s.questionsAsked.getD (s.currentQuestionNumber - 1) []
    let s1 := { s with
      userResponses := s.userResponses ++ [userInput]
      , conversationHistory := s.conversationHistory ++
          [Turn.mk (pyGetStr currentQuestion "question") userInput s.currentQuestionNumber] }
    let evaluation := svc.evaluateAnswer currentQuestion userInput
    let feedback := svc.conductInterviewResponse userInput currentQuestion s1.conversationHistory
    let s2 := { s1 with evaluations := s1.evaluations ++ [evaluation] }
    if s.currentQuestionNumber < s.totalQuestions then
      let r := ask_next_question svc s2
      ⟨r.1, feedback ++ "\n\n" ++ r.2,
        [.evaluateAnswerCall, .feedbackCall, .generateQuestionCall]⟩
    else
      ⟨{ s2 with phase := .conclusion }
      , feedback ++ "\n\nThank you for completing all " ++ toString s.totalQuestions ++
          " questions! Let me generate your comprehensive feedback report..."
      , [.evaluateAnswerCall, .feedbackCall]⟩

/-- `_handle_conclusion_phase` (interviewer.py:173-180): generate the
final report from the accumulated lists; the state is untouched. -/
def handle_conclusion_phase (svc : AIService) (s : InterviewState) : StepOut :=
  ⟨s, svc.generateFinalReport s.questionsAsked s.userResponses s.evaluations, [.reportCall]⟩

/-- `process_user_input` (interviewer.py:106-125): normalize the input
(`strip().lower()`) and dispatch on the current phase. -/
def process_user_input (svc : AIService) (s : InterviewState)
    (userInput : String) : StepOut :=
  let input := pyLower (pyStrip userInput)
  match s.phase with
  | .introduction => handle_introduction_phase svc s input
  | .questioning => handle_questioning_phase svc s input
  | .conclusion => handle_conclusion_phase svc s

/-- The `question_text` branch of `start_interview` (interviewer.py:67-90). -/
def questionCountText (total : ℕ) : String :=
  if total = 3 then "THREE"
  else if total = 4 then "FOUR"
  else if total = 5 then "FIVE"
  else toString total

/-- The `difficulty_text` branch of `start_interview` (interviewer.py:67-90). -/
def difficultyText (total : ℕ) : String :=
  if total = 3 then
    "The questions will cover:\n1. Intermediate level: Common data manipulation and lookup functions\n2. Intermediate/Advanced level: More complex formulas and techniques  \n3. Advanced level: Complex logical thinking and advanced scenarios"
  else if total = 4 then
    "The questions will cover:\n1. Intermediate level: Basic functions and formulas\n2. Intermediate level: Data manipulation and lookup functions  \n3. Intermediate/Advanced level: More complex formulas and techniques\n4. Advanced level: Complex logical thinking and advanced scenarios"
  else if total = 5 then
    "The questions will cover:\n1. Intermediate level: Basic functions and formulas\n2. Intermediate level: Data manipulation and lookup functions\n3. Intermediate/Advanced level: Complex formulas and techniques\n4. Intermediate/Advanced level: Advanced data analysis\n5. Advanced level: Complex logical thinking and advanced scenarios"
  else
    "The questions will progressively increase in difficulty across " ++ toString total ++ " levels."

/-- The introduction message of `start_interview` (interviewer.py:92-104). -/
def introductionText (total : ℕ) : String :=
  "Hello! I'm your AI Excel Mock Interviewer. \n\nI'm a seasoned, professional senior analyst, and I'm here to assess your practical Excel skills through a structured interview process.\n\nHere's how this will work:\n• I will ask you " ++ questionCountText total ++
  " questions that progressively increase in difficulty\n• For each question, please describe your approach and provide the specific formulas or functions you would use\n• I'll evaluate your responses based on correctness, efficiency, and clarity of explanation\n• At the end, I'll provide you with a comprehensive feedback report with actionable recommendations\n\n" ++
  difficultyText total

/-- `start_interview` (interviewer.py:57-104): (re)set the phase to the
introduction and return the introduction text. -/
def start_interview (s : InterviewState) : InterviewState × String :=
  ( { s with phase := .introduction }, introductionText s.totalQuestions )

/-- The state after a sequence of `process_user_input` calls. -/
def runState (svc : AIService) (s : InterviewState) (inputs : List String) :
    InterviewState :=
  inputs.foldl (fun st i => (process_user_input svc st i).state) s

/-! ## Auxiliary notions used by the statements -/

/-- The four score fields every evaluation must carry. -/
def scoreKeys : List String :=
  ["correctness_score", "efficiency_score", "clarity_score", "overall_score"]

/-- All four scores are present, numeric and within `[0, 10]`. -/
def scoresWithinRange (d : JObj) : Prop :=
  ∀ k ∈ scoreKeys, ∃ q : ℚ, getKey d k = some (Json.num q) ∧ 0 ≤ q ∧ q ≤ 10

/-- Modelled from the spec: the §4.2 difficulty table exactly as the claim
states it — `N = 3, 4, 5` by the table rows, any other `N` by the
`⌊N/3⌋ / ⌊N/3⌋ / remainder` rule.  Compared against
`difficultyForQuestion`, which is translated from the source. -/
def specDifficultyTable (total n : ℕ) : QuestionDifficulty :=
  if total = 3 then
    if n = 1 then .intermediate
    else if n = 2 then .intermediate_advanced
    else .advanced
  else if total = 4 then
    if n = 1 ∨ n = 2 then .intermediate
    else if n = 3 then .intermediate_advanced
    else .advanced
  else if total = 5 then
    if n = 1 ∨ n = 2 then .intermediate
    else if n = 3 ∨ n = 4 then .intermediate_advanced
    else .advanced
  else
    if n ≤ total / 3 then .intermediate
    else if n ≤ total / 3 + total / 3 then .intermediate_advanced
    else .advanced

/-- Position of a phase along Introduction → Questioning → Conclusion. -/
def phaseRank : InterviewPhase → ℕ
  | .introduction => 0
  | .questioning => 1
  | .conclusion => 2

/-- The states a session owned by one interview run can be in between
public calls: the fresh state (the spec requires `total_questions ≥ 1` at
construction, and `start_interview` on the fresh state returns it
unchanged), closed under `process_user_input` steps. -/
inductive Reachable (svc : AIService) : InterviewState → Prop where
  | init (total : ℕ) (htotal : 1 ≤ total) : Reachable svc (initState total)
  | step (s : InterviewState) (input : String) (h : Reachable svc s) :
      Reachable svc (process_user_input svc s input).state

/-- The inductive invariant of the session state machine, proved to hold
in every reachable state. -/
def StateInv (s : InterviewState) : Prop :=
  1 ≤ s.totalQuestions ∧
  s.questionsAsked.length = s.currentQuestionNumber ∧
  s.currentQuestionNumber ≤ s.totalQuestions ∧
  (s.phase = .introduction →
    s.currentQuestionNumber = 0 ∧ s.userResponses = [] ∧ s.evaluations = []) ∧
  (s.phase = .questioning →
    1 ≤ s.currentQuestionNumber ∧
    s.userResponses.length + 1 = s.currentQuestionNumber ∧
    s.evaluations.length + 1 = s.currentQuestionNumber) ∧
  (s.phase = .conclusion →
    s.currentQuestionNumber = s.totalQuestions ∧
    s.userResponses.length = s.totalQuestions ∧
    s.evaluations.length = s.totalQuestions)

/-- A deterministic stub gateway, used to instantiate the universally
quantified theorems at concrete inputs. -/
def stubService : AIService :=
  { generateQuestion := fun _ _ _ => [("question", Json.str "Q"), ("ideal_solution", Json.str "S")]
  , conductInterviewResponse := fun _ _ _ => "FB"
  , evaluateAnswer := fun _ a => basicEvaluation a
  , generateFinalReport := fun _ _ _ => "REPORT" }

/-! ## Dictionary lemmas -/

lemma getKey_append_of_some (e : JObj) :
    ∀ {d : JObj} {k : String} {w : Json},
      getKey d k = some w → getKey (d ++ e) k = some w := by
  intro d
  induction d with
  | nil => intro k w h; simp [getKey] at h
  | cons p rest ih =>
      intro k w h
      obtain ⟨k', v⟩ := p
      rw [List.cons_append]
      by_cases hk : k' = k
      · simp [getKey, hk] at h ⊢; exact h
      · simp [getKey, hk] at h ⊢; exact ih h

lemma getKey_append_of_none (e : JObj) :
    ∀ {d : JObj} {k : String},
      getKey d k = none → getKey (d ++ e) k = getKey e k := by
  intro d
  induction d with
  | nil => intro k _; rfl
  | cons p rest ih =>
      intro k h
      obtain ⟨k', v⟩ := p
      rw [List.cons_append]
      by_cases hk : k' = k
      · simp [getKey, hk] at h
      · simp [getKey, hk] at h ⊢; exact ih h

lemma getKey_setdefaultKey_self (d : JObj) (k : String) (v : Json) :
    getKey (setdefaultKey d k v) k = some ((getKey d k).getD v) := by
  unfold setdefaultKey
  cases h : getKey d k with
  | some w => simp [h]
  | none => rw [getKey_append_of_none _ h]; simp [getKey]

lemma getKey_setdefaultKey_ne (d : JObj) (k' k : String) (v : Json) (h : k' ≠ k) :
    getKey (setdefaultKey d k' v) k = getKey d k := by
  unfold setdefaultKey
  cases h' : getKey d k' with
  | some w => rfl
  | none =>
      cases h2 : getKey d k with
      | some w => rw [getKey_append_of_some _ h2]
      | none => rw [getKey_append_of_none _ h2]; simp [getKey, h]

/-- On a successfully parsed payload, each of the four score fields of the
evaluation is the payload's own value when present, and the default `5.0`
when absent. -/
lemma evaluate_answer_score_getKey (p : JObj) (a : String) :
    ∀ k ∈ scoreKeys,
      getKey (evaluate_answer (.success p) a) k =
        some ((getKey p k).getD (Json.num 5)) := by
  intro k hk
  have hc : ("correctness_score" : String) ≠ "efficiency_score" := by decide
  simp only [scoreKeys, List.mem_cons, List.not_mem_nil, or_false] at hk
  rcases hk with rfl | rfl | rfl | rfl
  · simp only [evaluate_answer]
    rw [getKey_setdefaultKey_ne _ "recommendation" "correctness_score" _ (by decide),
        getKey_setdefaultKey_ne _ "areas_for_improvement" "correctness_score" _ (by decide),
        getKey_setdefaultKey_ne _ "strengths" "correctness_score" _ (by decide),
        getKey_setdefaultKey_ne _ "feedback" "correctness_score" _ (by decide),
        getKey_setdefaultKey_ne _ "overall_score" "correctness_score" _ (by decide),
        getKey_setdefaultKey_ne _ "clarity_score" "correctness_score" _ (by decide),
        getKey_setdefaultKey_ne _ "efficiency_score" "correctness_score" _ (by decide),
        getKey_setdefaultKey_self]
  · simp only [evaluate_answer]
    rw [getKey_setdefaultKey_ne _ "recommendation" "efficiency_score" _ (by decide),
        getKey_setdefaultKey_ne _ "areas_for_improvement" "efficiency_score" _ (by decide),
        getKey_setdefaultKey_ne _ "strengths" "efficiency_score" _ (by decide),
        getKey_setdefaultKey_ne _ "feedback" "efficiency_score" _ (by decide),
        getKey_setdefaultKey_ne _ "overall_score" "efficiency_score" _ (by decide),
        getKey_setdefaultKey_ne _ "clarity_score" "efficiency_score" _ (by decide),
        getKey_setdefaultKey_self,
        getKey_setdefaultKey_ne _ "correctness_score" "efficiency_score" _ hc]
  · simp only [evaluate_answer]
    rw [getKey_setdefaultKey_ne _ "recommendation" "clarity_score" _ (by decide),
        getKey_setdefaultKey_ne _ "areas_for_improvement" "clarity_score" _ (by decide),
        getKey_setdefaultKey_ne _ "strengths" "clarity_score" _ (by decide),
        getKey_setdefaultKey_ne _ "feedback" "clarity_score" _ (by decide),
        getKey_setdefaultKey_ne _ "overall_score" "clarity_score" _ (by decide),
        getKey_setdefaultKey_self,
        getKey_setdefaultKey_ne _ "efficiency_score" "clarity_score" _ (by decide),
        getKey_setdefaultKey_ne _ "correctness_score" "clarity_score" _ (by decide)]
  · simp only [evaluate_answer]
    rw [getKey_setdefaultKey_ne _ "recommendation" "overall_score" _ (by decide),
        getKey_setdefaultKey_ne _ "areas_for_improvement" "overall_score" _ (by decide),
        getKey_setdefaultKey_ne _ "strengths" "overall_score" _ (by decide),
        getKey_setdefaultKey_ne _ "feedback" "overall_score" _ (by decide),
        getKey_setdefaultKey_self,
        getKey_setdefaultKey_ne _ "clarity_score" "overall_score" _ (by decide),
        getKey_setdefaultKey_ne _ "efficiency_score" "overall_score" _ (by decide),
        getKey_setdefaultKey_ne _ "correctness_score" "overall_score" _ (by decide)]

/-! ## Step lemmas for the session state machine -/

lemma ask_next_question_fst_phase (svc : AIService) (s : InterviewState) :
    (ask_next_question svc s).1.phase = s.phase := rfl

lemma ask_next_question_fst_num (svc : AIService) (s : InterviewState) :
    (ask_next_question svc s).1.currentQuestionNumber = s.currentQuestionNumber + 1 := rfl

lemma ask_next_question_fst_total (svc : AIService) (s : InterviewState) :
    (ask_next_question svc s).1.totalQuestions = s.totalQuestions := rfl

lemma ask_next_question_fst_responses (svc : AIService) (s : InterviewState) :
    (ask_next_question svc s).1.userResponses = s.userResponses := rfl

lemma ask_next_question_fst_evals (svc : AIService) (s : InterviewState) :
    (ask_next_question svc s).1.evaluations = s.evaluations := rfl

lemma ask_next_question_fst_ready (svc : AIService) (s : InterviewState) :
    (ask_next_question svc s).1.isReady = s.isReady := rfl

lemma ask_next_question_fst_asked_len (svc : AIService) (s : InterviewState) :
    (ask_next_question svc s).1.questionsAsked.length = s.questionsAsked.length + 1 := by
  simp [ask_next_question]

/-- Dispatch of `process_user_input` in the introduction phase. -/
lemma process_input_intro (svc : AIService) (s : InterviewState) (raw : String)
    (hp : s.phase = .introduction) :
    process_user_input svc s raw =
      handle_introduction_phase svc s (pyLower (pyStrip raw)) := by
  simp [process_user_input, hp]

/-- Dispatch of `process_user_input` in the questioning phase. -/
lemma process_input_questioning (svc : AIService) (s : InterviewState) (raw : String)
    (hp : s.phase = .questioning) :
    process_user_input svc s raw =
      handle_questioning_phase svc s (pyLower (pyStrip raw)) := by
  simp [process_user_input, hp]

/-- Dispatch of `process_user_input` in the conclusion phase: the state
is returned unchanged and the report is generated from the accumulated
lists. -/
lemma process_input_conclusion (svc : AIService) (s : InterviewState) (raw : String)
    (hp : s.phase = .conclusion) :
    process_user_input svc s raw =
      ⟨s, svc.generateFinalReport s.questionsAsked s.userResponses s.evaluations,
        [.reportCall]⟩ := by
  simp [process_user_input, hp, handle_conclusion_phase]

/-- A recognized readiness input in the introduction phase: the session
moves to questioning and asks the next question. -/
lemma intro_step_ready (svc : AIService) (s : InterviewState) (raw : String)
    (hp : s.phase = .introduction)
    (hr : containsReadyIndicator (pyLower (pyStrip raw)) = true) :
    process_user_input svc s raw =
      ⟨(ask_next_question svc { s with isReady := true, phase := .questioning }).1,
       (ask_next_question svc { s with isReady := true, phase := .questioning }).2,
       [.generateQuestionCall]⟩ := by
  rw [process_input_intro svc s raw hp]
  simp [handle_introduction_phase, hr]

/-- An unrecognized input in the introduction phase: the state is
unchanged and a readiness prompt is returned. -/
lemma intro_step_not_ready (svc : AIService) (s : InterviewState) (raw : String)
    (hp : s.phase = .introduction)
    (hr : containsReadyIndicator (pyLower (pyStrip raw)) = false) :
    process_user_input svc s raw =
      ⟨s, "I understand you might need a moment. When you're ready to begin the Excel proficiency assessment, just let me know by typing 'ready' or 'yes'.", []⟩ := by
  rw [process_input_intro svc s raw hp]
  simp [handle_introduction_phase, hr]

/-- Field-level description of a recognized readiness step. -/
lemma intro_step_ready_fields (svc : AIService) (s : InterviewState) (raw : String)
    (hp : s.phase = .introduction)
    (hr : containsReadyIndicator (pyLower (pyStrip raw)) = true) :
    (process_user_input svc s raw).state.phase = .questioning ∧
    (process_user_input svc s raw).state.currentQuestionNumber = s.currentQuestionNumber + 1 ∧
    (process_user_input svc s raw).state.questionsAsked.length = s.questionsAsked.length + 1 ∧
    (process_user_input svc s raw).state.userResponses = s.userResponses ∧
    (process_user_input svc s raw).state.evaluations = s.evaluations ∧
    (process_user_input svc s raw).state.totalQuestions = s.totalQuestions ∧
    (process_user_input svc s raw).state.isReady = true := by
  rw [intro_step_ready svc s raw hp hr]
  exact ⟨rfl, rfl, by rw [ask_next_question_fst_asked_len], rfl, rfl, rfl, rfl⟩

/-- A non-final answer in the questioning phase: the session records the
answer and its evaluation and asks the next question. -/
lemma questioning_step_advance (svc : AIService) (s : InterviewState) (raw : String)
    (hp : s.phase = .questioning) (hnz : s.currentQuestionNumber ≠ 0)
    (hlt : s.currentQuestionNumber < s.totalQuestions) :
    (process_user_input svc s raw).state.phase = .questioning ∧
    (process_user_input svc s raw).state.currentQuestionNumber = s.currentQuestionNumber + 1 ∧
    (process_user_input svc s raw).state.questionsAsked.length = s.questionsAsked.length + 1 ∧
    (process_user_input svc s raw).state.userResponses.length = s.userResponses.length + 1 ∧
    (process_user_input svc s raw).state.evaluations.length = s.evaluations.length + 1 ∧
    (process_user_input svc s raw).state.totalQuestions = s.totalQuestions := by
  rw [process_input_questioning svc s raw hp]
  simp [handle_questioning_phase, hnz, hlt, hp, ask_next_question_fst_phase,
    ask_next_question_fst_num, ask_next_question_fst_total,
    ask_next_question_fst_asked_len, ask_next_question_fst_responses,
    ask_next_question_fst_evals]

/-- The final answer in the questioning phase: the session records the
answer and its evaluation and moves to the conclusion phase. -/
lemma questioning_step_conclude (svc : AIService) (s : InterviewState) (raw : String)
    (hp : s.phase = .questioning) (hnz : s.currentQuestionNumber ≠ 0)
    (hge : ¬ s.currentQuestionNumber < s.totalQuestions) :
    (process_user_input svc s raw).state.phase = .conclusion ∧
    (process_user_input svc s raw).state.currentQuestionNumber = s.currentQuestionNumber ∧
    (process_user_input svc s raw).state.questionsAsked.length = s.questionsAsked.length ∧
    (process_user_input svc s raw).state.userResponses.length = s.userResponses.length + 1 ∧
    (process_user_input svc s raw).state.evaluations.length = s.evaluations.length + 1 ∧
    (process_user_input svc s raw).state.totalQuestions = s.totalQuestions := by
  rw [process_input_questioning svc s raw hp]
  simp [handle_questioning_phase, hnz, hge]

/-- The defensive `current_question_number == 0` branch of the
questioning phase (unreachable through the public protocol). -/
lemma questioning_step_zero (svc : AIService) (s : InterviewState) (raw : String)
    (hp : s.phase = .questioning) (hz : s.currentQuestionNumber = 0) :
    (process_user_input svc s raw).state = (ask_next_question svc s).1 := by
  rw [process_input_questioning svc s raw hp]
  simp [handle_questioning_phase, hz]

/-- One step never lowers the phase rank, and the conclusion phase is
preserved by every step. -/
lemma step_phase (svc : AIService) (s : InterviewState) (input : String) :
    phaseRank s.phase ≤ phaseRank (process_user_input svc s input).state.phase ∧
    (s.phase = .conclusion → (process_user_input svc s input).state.phase = .conclusion) := by
  by_cases hp : s.phase = .introduction
  · by_cases hr : containsReadyIndicator (pyLower (pyStrip input)) = true
    · have h := intro_step_ready_fields svc s input hp hr
      rw [h.1, hp]
      exact ⟨by simp [phaseRank], fun h' => absurd h' (by decide)⟩
    · have hr' : containsReadyIndicator (pyLower (pyStrip input)) = false := by
        simpa using hr
      rw [intro_step_not_ready svc s input hp hr']
      exact ⟨le_refl _, fun h => h⟩
  by_cases hq : s.phase = .questioning
  · by_cases hz : s.currentQuestionNumber = 0
    · rw [questioning_step_zero svc s input hq hz, ask_next_question_fst_phase]
      exact ⟨le_refl _, fun h => h⟩
    · by_cases hlt : s.currentQuestionNumber < s.totalQuestions
      · have h := questioning_step_advance svc s input hq hz hlt
        rw [h.1, hq]
        exact ⟨le_refl _, fun h' => absurd h' (by decide)⟩
      · have h := questioning_step_conclude svc s input hq hz hlt
        rw [h.1, hq]
        exact ⟨by simp [phaseRank], fun _ => rfl⟩
  have hc : s.phase = .conclusion := by
    cases h : s.phase
    · exact absurd h hp
    · exact absurd h hq
    · rfl
  rw [process_input_conclusion svc s input hc, hc]
  exact ⟨le_refl _, fun _ => rfl⟩

/-- One step of `runState`. -/
lemma runState_cons (svc : AIService) (s : InterviewState) (a : String)
    (rest : List String) :
    runState svc s (a :: rest) =
      runState svc (process_user_input svc s a).state rest := rfl

/-- Every reachable state satisfies the inductive invariant. -/
lemma reachable_inv (svc : AIService) (s : InterviewState)
    (h : Reachable svc s) : StateInv s := by
  induction h with
  | init total htotal =>
      refine ⟨htotal, rfl, by simp [initState], fun _ => ⟨rfl, rfl, rfl⟩,
        fun habs => ?_, fun habs => ?_⟩ <;> simp [initState] at habs
  | step s input hs ih =>
      obtain ⟨htotal, hasked, hle, hintro, hquest, hconc⟩ := ih
      by_cases hp : s.phase = .introduction
      · obtain ⟨hz, hresp, hevals⟩ := hintro hp
        by_cases hr : containsReadyIndicator (pyLower (pyStrip input)) = true
        · obtain ⟨h1, h2, h3, h4, h5, h6, h7⟩ :=
            intro_step_ready_fields svc s input hp hr
          have hrl : (process_user_input svc s input).state.userResponses.length = 0 := by
            rw [h4, hresp]; rfl
          have hel : (process_user_input svc s input).state.evaluations.length = 0 := by
            rw [h5, hevals]; rfl
          refine ⟨by omega, by omega, by omega, ?_, ?_, ?_⟩
          · intro habs; rw [h1] at habs; exact absurd habs (by decide)
          · intro _; exact ⟨by omega, by omega, by omega⟩
          · intro habs; rw [h1] at habs; exact absurd habs (by decide)
        · have hr' : containsReadyIndicator (pyLower (pyStrip input)) = false := by
            simpa using hr
          rw [intro_step_not_ready svc s input hp hr']
          exact ⟨htotal, hasked, hle, hintro, hquest, hconc⟩
      by_cases hq : s.phase = .questioning
      · obtain ⟨hnz1, hresp, hevals⟩ := hquest hq
        have hnz : s.currentQuestionNumber ≠ 0 := by omega
        by_cases hlt : s.currentQuestionNumber < s.totalQuestions
        · obtain ⟨h1, h2, h3, h4, h5, h6⟩ :=
            questioning_step_advance svc s input hq hnz hlt
          refine ⟨by omega, by omega, by omega, ?_, ?_, ?_⟩
          · intro habs; rw [h1] at habs; exact absurd habs (by decide)
          · intro _; exact ⟨by omega, by omega, by omega⟩
          · intro habs; rw [h1] at habs; exact absurd habs (by decide)
        · obtain ⟨h1, h2, h3, h4, h5, h6⟩ :=
            questioning_step_conclude svc s input hq hnz hlt
          refine ⟨by omega, by omega, by omega, ?_, ?_, ?_⟩
          · intro habs; rw [h1] at habs; exact absurd habs (by decide)
          · intro habs; rw [h1] at habs; exact absurd habs (by decide)
          · intro _; exact ⟨by omega, by omega, by omega⟩
      have hc : s.phase = .conclusion := by
        cases h : s.phase
        · exact absurd h hp
        · exact absurd h hq
        · rfl
      rw [process_input_conclusion svc s input hc]
      exact ⟨htotal, hasked, hle, hintro, hquest, hconc⟩

/-- Running the remaining answers from any well-formed questioning state
with one pending question reaches the conclusion phase with full lists. -/
lemma questioning_run (svc : AIService) :
    ∀ (answers : List String) (s : InterviewState),
      s.phase = .questioning →
      1 ≤ s.currentQuestionNumber →
      s.currentQuestionNumber ≤ s.totalQuestions →
      s.questionsAsked.length = s.currentQuestionNumber →
      s.userResponses.length + 1 = s.currentQuestionNumber →
      s.evaluations.length + 1 = s.currentQuestionNumber →
      s.currentQuestionNumber + answers.length = s.totalQuestions + 1 →
      (runState svc s answers).phase = .conclusion ∧
      (runState svc s answers).questionsAsked.length = s.totalQuestions ∧
      (runState svc s answers).userResponses.length = s.totalQuestions ∧
      (runState svc s answers).evaluations.length = s.totalQuestions ∧
      (runState svc s answers).totalQuestions = s.totalQuestions := by
  intro answers
  induction answers with
  | nil =>
      intro s hp h1 h2 h3 h4 h5 h6
      exfalso
      simp only [List.length_nil] at h6
      omega
  | cons a rest ih =>
      intro s hp h1 h2 h3 h4 h5 h6
      have hlen : s.currentQuestionNumber + rest.length + 1 = s.totalQuestions + 1 := by
        simp only [List.length_cons] at h6
        omega
      rw [runState_cons]
      have hnz : s.currentQuestionNumber ≠ 0 := by omega
      by_cases hlt : s.currentQuestionNumber < s.totalQuestions
      · obtain ⟨g1, g2, g3, g4, g5, g6⟩ := questioning_step_advance svc s a hp hnz hlt
        obtain ⟨r1, r2, r3, r4, r5⟩ := ih (process_user_input svc s a).state g1
          (by omega) (by omega) (by omega) (by omega) (by omega) (by omega)
        exact ⟨r1, by omega, by omega, by omega, by omega⟩
      · obtain ⟨g1, g2, g3, g4, g5, g6⟩ := questioning_step_conclude svc s a hp hnz hlt
        have hrest : rest = [] := by
          have : rest.length = 0 := by omega
          exact List.length_eq_zero.mp this
        subst hrest
        rw [show runState svc (process_user_input svc s a).state [] =
              (process_user_input svc s a).state from rfl]
        exact ⟨g1, by omega, by omega, by omega, by omega⟩

/-! ## Claims -/

/-- C2: for every `total_questions N ≥ 1` and ordinal `1 ≤ k ≤ N`, the
difficulty the session assigns to question `k` is exactly the §4.2 table
mapping (vacuously matching on the three special rows, and the
`⌊N/3⌋ / ⌊N/3⌋ / remainder` rule for every other `N`). -/
theorem c2_difficulty_progression (N k : ℕ) (hN : 1 ≤ N) (hk1 : 1 ≤ k)
    (hk2 : k ≤ N) : difficultyForQuestion N k = specDifficultyTable N k := by
  simp only [difficultyForQuestion, specDifficultyTable]
  split_ifs <;> first | rfl | omega

/-- Witness for C2 at `N = 7`, `k = 5`. -/
theorem c2_difficulty_progression_witness :
    difficultyForQuestion 7 5 = specDifficultyTable 7 5 :=
  c2_difficulty_progression 7 5 (by norm_num) (by norm_num) (by norm_num)

/-- C9: for every difficulty level and ordinal, when the generative
capability fails (raises, or returns output with no parseable JSON
object), `generate_question` returns the static fallback question: it is
independent of the ordinal, it is the entry registered in the fallback
bank under that difficulty label, and it carries a question body and an
ideal-solution string.  (The model is a total function, so no exception
can escape.) -/
theorem c9_question_fallback (difficulty : QuestionDifficulty) (n m : ℕ) :
    generate_question difficulty.value n .failure =
      get_fallback_question difficulty.value ∧
    generate_question difficulty.value n .failure =
      generate_question difficulty.value m .failure ∧
    (∃ entry, (difficulty.value, entry) ∈ fallback_questions ∧
      get_fallback_question difficulty.value = entry) ∧
    (∃ body, getKey (get_fallback_question difficulty.value) "question" =
      some (Json.str body)) ∧
    (∃ sol, getKey (get_fallback_question difficulty.value) "ideal_solution" =
      some (Json.str sol)) := by
  cases difficulty
  · exact ⟨rfl, rfl, ⟨_, List.Mem.head _, rfl⟩, ⟨_, rfl⟩, ⟨_, rfl⟩⟩
  · exact ⟨rfl, rfl, ⟨_, List.Mem.tail _ (List.Mem.head _), rfl⟩, ⟨_, rfl⟩, ⟨_, rfl⟩⟩
  · exact ⟨rfl, rfl, ⟨_, List.Mem.tail _ (List.Mem.tail _ (List.Mem.head _)), rfl⟩,
      ⟨_, rfl⟩, ⟨_, rfl⟩⟩

/-- C10: on the fallback path, `evaluate_answer` is the length-heuristic
evaluation; all four of its scores equal `basicScore`, which is monotone
non-decreasing in the trimmed answer length; every substantial answer
(trimmed length > 20) scores strictly higher than any terse one; and a
substantial answer meets the heuristic minimum `5.0` on all four scores. -/
theorem c10_length_heuristic (a b : String) :
    evaluate_answer .failure a = basicEvaluation a ∧
    (∀ k ∈ scoreKeys, getKey (basicEvaluation a) k = some (Json.num (basicScore a))) ∧
    ((pyStrip a).length ≤ (pyStrip b).length → basicScore a ≤ basicScore b) ∧
    (20 < (pyStrip a).length → ¬ 20 < (pyStrip b).length →
      basicScore b < basicScore a) ∧
    (20 < (pyStrip a).length → (5 : ℚ) ≤ basicScore a) := by
  refine ⟨rfl, ?_, ?_, ?_, ?_⟩
  · intro k hk
    simp only [scoreKeys, List.mem_cons, List.not_mem_nil, or_false] at hk
    rcases hk with rfl | rfl | rfl | rfl <;> rfl
  · intro h
    unfold basicScore
    split_ifs <;> first | (exfalso; omega) | norm_num
  · intro ha hb
    unfold basicScore
    split_ifs <;> first | (exfalso; omega) | norm_num
  · intro ha
    unfold basicScore
    split_ifs <;> first | (exfalso; omega) | norm_num

/-- Witness for C10 at a substantial and a terse concrete answer. -/
theorem c10_length_heuristic_witness :
    basicScore "idk" < basicScore "=SUMIF(A:A,\"PROD001\",B:B) as the total" ∧
    (5 : ℚ) ≤ basicScore "=SUMIF(A:A,\"PROD001\",B:B) as the total" ∧
    getKey (basicEvaluation "=SUMIF(A:A,\"PROD001\",B:B) as the total") "overall_score" =
      some (Json.num (basicScore "=SUMIF(A:A,\"PROD001\",B:B) as the total")) := by
  refine ⟨?_, ?_, ?_⟩
  · exact (c10_length_heuristic "=SUMIF(A:A,\"PROD001\",B:B) as the total" "idk").2.2.2.1
      (by decide) (by decide)
  · exact (c10_length_heuristic "=SUMIF(A:A,\"PROD001\",B:B) as the total" "idk").2.2.2.2
      (by decide)
  · exact (c10_length_heuristic "=SUMIF(A:A,\"PROD001\",B:B) as the total" "idk").2.1
      "overall_score" (by simp [scoreKeys])

/-- C4 as stated is false: a successfully parsed payload carrying an
out-of-range score is returned unclamped.  With the payload
`{"correctness_score": 15}` the evaluation's correctness score is `15`,
outside `[0, 10]`. -/
theorem c4_counterexample :
    ¬ scoresWithinRange
        (evaluate_answer (.success [("correctness_score", Json.num 15)]) "some answer") := by
  intro h
  obtain ⟨q, hq, h0, h10⟩ := h "correctness_score" (by simp [scoreKeys])
  have h15 : getKey
      (evaluate_answer (.success [("correctness_score", Json.num 15)]) "some answer")
      "correctness_score" = some (Json.num 15) := rfl
  rw [h15] at hq
  have : (15 : ℚ) = q := by injection hq with hq'; injection hq'
  rw [← this] at h10
  norm_num at h10

/-- C4 amended: `evaluate_answer` always returns all four score fields;
on the fallback path every score lies within `[0, 10]`; and a score field
missing from a successfully parsed payload is defaulted to `5.0`, within
`[0, 10]`.  (Scores present in a parsed payload are passed through
unclamped, which is what refutes the claim as stated.) -/
theorem c4_scores_amended (res : CapResult) (ans : String) :
    (∀ k ∈ scoreKeys, ∃ v, getKey (evaluate_answer res ans) k = some v) ∧
    (res = .failure → scoresWithinRange (evaluate_answer res ans)) ∧
    (∀ p, res = .success p → ∀ k ∈ scoreKeys, getKey p k = none →
      getKey (evaluate_answer res ans) k = some (Json.num 5) ∧
      (0 : ℚ) ≤ 5 ∧ (5 : ℚ) ≤ 10) := by
  refine ⟨?_, ?_, ?_⟩
  · intro k hk
    cases res with
    | failure =>
        simp only [scoreKeys, List.mem_cons, List.not_mem_nil, or_false] at hk
        rcases hk with rfl | rfl | rfl | rfl <;> exact ⟨_, rfl⟩
    | success p => exact ⟨_, evaluate_answer_score_getKey p ans k hk⟩
  · intro hres
    subst hres
    intro k hk
    refine ⟨basicScore ans, ?_, ?_, ?_⟩
    · simp only [scoreKeys, List.mem_cons, List.not_mem_nil, or_false] at hk
      rcases hk with rfl | rfl | rfl | rfl <;> rfl
    · unfold basicScore; split_ifs <;> norm_num
    · unfold basicScore; split_ifs <;> norm_num
  · intro p hres k hk hnone
    subst hres
    refine ⟨?_, by norm_num, by norm_num⟩
    rw [evaluate_answer_score_getKey p ans k hk, hnone]
    rfl

/-- C1: for every `total_questions` in `{1, 3, 4, 5, 7}` and every
gateway, the full traversal — `start_interview` (which returns the fresh
state unchanged), one recognized readiness input and exactly `N` answers —
records exactly `N` questions, answers and evaluations, ends in the
conclusion phase, and a subsequent conclude call returns the report
generated from the accumulated lists (leaving the state unchanged). -/
theorem c1_full_traversal (svc : AIService) (N : ℕ)
    (readyInput concludeInput : String) (answers : List String)
    (hN : N ∈ ([1, 3, 4, 5, 7] : List ℕ))
    (hready : containsReadyIndicator (pyLower (pyStrip readyInput)) = true)
    (hlen : answers.length = N) :
    (start_interview (initState N)).1 = initState N ∧
    (runState svc (initState N) (readyInput :: answers)).questionsAsked.length = N ∧
    (runState svc (initState N) (readyInput :: answers)).userResponses.length = N ∧
    (runState svc (initState N) (readyInput :: answers)).evaluations.length = N ∧
    (runState svc (initState N) (readyInput :: answers)).phase = .conclusion ∧
    (process_user_input svc (runState svc (initState N) (readyInput :: answers))
        concludeInput).output =
      svc.generateFinalReport
        (runState svc (initState N) (readyInput :: answers)).questionsAsked
        (runState svc (initState N) (readyInput :: answers)).userResponses
        (runState svc (initState N) (readyInput :: answers)).evaluations ∧
    (process_user_input svc (runState svc (initState N) (readyInput :: answers))
        concludeInput).state =
      runState svc (initState N) (readyInput :: answers) := by
  have h1N : 1 ≤ N := by
    simp only [List.mem_cons, List.not_mem_nil, or_false] at hN
    omega
  obtain ⟨h1, h2, h3, h4, h5, h6, h7⟩ :=
    intro_step_ready_fields svc (initState N) readyInput rfl hready
  have hnum0 : (initState N).currentQuestionNumber = 0 := rfl
  have hasked0 : (initState N).questionsAsked.length = 0 := rfl
  have hresp0 : (process_user_input svc (initState N) readyInput).state.userResponses.length = 0 := by
    rw [h4]; rfl
  have hevals0 : (process_user_input svc (initState N) readyInput).state.evaluations.length = 0 := by
    rw [h5]; rfl
  have htot : (initState N).totalQuestions = N := rfl
  obtain ⟨r1, r2, r3, r4, r5⟩ := questioning_run svc answers
    (process_user_input svc (initState N) readyInput).state h1
    (by omega) (by omega) (by omega) (by omega) (by omega) (by omega)
  rw [runState_cons]
  refine ⟨rfl, by omega, by omega, by omega, r1, ?_, ?_⟩ <;>
    rw [process_input_conclusion svc _ concludeInput r1]

/-- Witness for C1: a three-question traversal under the stub gateway. -/
theorem c1_full_traversal_witness :
    (runState stubService (initState 3) ["ready", "a1", "a2", "a3"]).questionsAsked.length = 3 ∧
    (runState stubService (initState 3) ["ready", "a1", "a2", "a3"]).phase = .conclusion ∧
    (process_user_input stubService
        (runState stubService (initState 3) ["ready", "a1", "a2", "a3"]) "go on").output =
      stubService.generateFinalReport
        (runState stubService (initState 3) ["ready", "a1", "a2", "a3"]).questionsAsked
        (runState stubService (initState 3) ["ready", "a1", "a2", "a3"]).userResponses
        (runState stubService (initState 3) ["ready", "a1", "a2", "a3"]).evaluations := by
  have h := c1_full_traversal stubService 3 "ready" "go on" ["a1", "a2", "a3"]
    (by decide) (by decide) rfl
  exact ⟨h.2.1, h.2.2.2.2.1, h.2.2.2.2.2.1⟩

/-- C3: in the introduction phase, a submission advances the phase to
questioning and immediately produces question 1 exactly when the trimmed,
case-folded input contains one of the fixed affirmative tokens; any other
input leaves the state untouched and returns the readiness prompt. -/
theorem c3_readiness_recognition (svc : AIService) (s : InterviewState)
    (raw : String) (hphase : s.phase = .introduction)
    (hnum : s.currentQuestionNumber = 0) :
    ((process_user_input svc s raw).state.phase = .questioning ↔
      containsReadyIndicator (pyLower (pyStrip raw)) = true) ∧
    (containsReadyIndicator (pyLower (pyStrip raw)) = true →
      (process_user_input svc s raw).state.currentQuestionNumber = 1 ∧
      (process_user_input svc s raw).state.questionsAsked.length =
        s.questionsAsked.length + 1 ∧
      (process_user_input svc s raw).state.isReady = true ∧
      (process_user_input svc s raw).output =
        (ask_next_question svc { s with isReady := true, phase := .questioning }).2) ∧
    (containsReadyIndicator (pyLower (pyStrip raw)) = false →
      (process_user_input svc s raw).state = s ∧
      (process_user_input svc s raw).output =
        "I understand you might need a moment. When you're ready to begin the Excel proficiency assessment, just let me know by typing 'ready' or 'yes'.") := by
  by_cases hr : containsReadyIndicator (pyLower (pyStrip raw)) = true
  · obtain ⟨h1, h2, h3, h4, h5, h6, h7⟩ :=
      intro_step_ready_fields svc s raw hphase hr
    refine ⟨by simp [h1, hr], ?_, ?_⟩
    · intro _
      refine ⟨by omega, h3, h7, ?_⟩
      rw [intro_step_ready svc s raw hphase hr]
    · intro hf; rw [hr] at hf; cases hf
  · have hr' : containsReadyIndicator (pyLower (pyStrip raw)) = false := by
      simpa using hr
    rw [intro_step_not_ready svc s raw hphase hr']
    refine ⟨by simp [hphase, hr'], ?_, ?_⟩
    · intro hcontra; rw [hr'] at hcontra; cases hcontra
    · intro _; exact ⟨rfl, rfl⟩

/-- Witness for C3 on the spec's three examples:
`"Ready!"` and `"yes please"` advance the phase, `"nah"` does not. -/
theorem c3_readiness_recognition_witness :
    (process_user_input stubService (initState 3) "Ready!").state.phase = .questioning ∧
    (process_user_input stubService (initState 3) "yes please").state.phase = .questioning ∧
    (process_user_input stubService (initState 3) "nah").state = initState 3 := by
  refine ⟨?_, ?_, ?_⟩
  · exact (c3_readiness_recognition stubService (initState 3) "Ready!" rfl rfl).1.mpr
      (by decide)
  · exact (c3_readiness_recognition stubService (initState 3) "yes please" rfl rfl).1.mpr
      (by decide)
  · exact ((c3_readiness_recognition stubService (initState 3) "nah" rfl rfl).2.2
      (by decide)).1

/-- C5: submitting an answer in the questioning phase when
`current_question_number == total_questions` moves the phase to the
conclusion, asks no further question (the asked list is unchanged and no
question-generation call is made), generates no report, and returns the
feedback followed by the completion notice. -/
theorem c5_final_answer_concludes (svc : AIService) (s : InterviewState)
    (raw : String) (hphase : s.phase = .questioning)
    (hlast : s.currentQuestionNumber = s.totalQuestions)
    (hpos : 1 ≤ s.currentQuestionNumber) :
    (process_user_input svc s raw).state.phase = .conclusion ∧
    (process_user_input svc s raw).state.questionsAsked = s.questionsAsked ∧
    (process_user_input svc s raw).calls = [.evaluateAnswerCall, .feedbackCall] ∧
    GatewayCall.generateQuestionCall ∉ (process_user_input svc s raw).calls ∧
    GatewayCall.reportCall ∉ (process_user_input svc s raw).calls ∧
    (process_user_input svc s raw).output =
      svc.conductInterviewResponse (pyLower (pyStrip raw))
          (s.questionsAsked.getD (s.currentQuestionNumber - 1) [])
          (s.conversationHistory ++
            [Turn.mk
              (pyGetStr (s.questionsAsked.getD (s.currentQuestionNumber - 1) []) "question")
              (pyLower (pyStrip raw)) s.currentQuestionNumber]) ++
        "\n\nThank you for completing all " ++ toString s.totalQuestions ++
        " questions! Let me generate your comprehensive feedback report..." := by
  have hnz : s.currentQuestionNumber ≠ 0 := by omega
  have hge : ¬ s.currentQuestionNumber < s.totalQuestions := by omega
  rw [process_input_questioning svc s raw hphase]
  simp [handle_questioning_phase, hnz, hge]

/-- Witness for C5: with one question in total, the answer to question 1
concludes the session without a question or report call. -/
theorem c5_final_answer_concludes_witness :
    (process_user_input stubService
        (process_user_input stubService (initState 1) "ready").state
        "my answer").state.phase = .conclusion ∧
    (process_user_input stubService
        (process_user_input stubService (initState 1) "ready").state
        "my answer").calls = [.evaluateAnswerCall, .feedbackCall] := by
  have h := c5_final_answer_concludes stubService
    (process_user_input stubService (initState 1) "ready").state
    "my answer" (by decide) (by decide) (by decide)
  exact ⟨h.1, h.2.2.1⟩

/-- C6 as stated is false: in the reachable state right after the
readiness input, question 1 is pending, so one question is recorded but
no answer yet. -/
theorem c6_counterexample :
    Reachable stubService (process_user_input stubService (initState 3) "ready").state ∧
    ¬ ((process_user_input stubService (initState 3) "ready").state.questionsAsked.length =
        (process_user_input stubService (initState 3) "ready").state.userResponses.length) := by
  constructor
  · exact Reachable.step (initState 3) "ready" (Reachable.init 3 (by norm_num))
  · decide

/-- C6 amended: in every reachable state between public calls,
`len(user_responses) == len(evaluations)`; `len(questions_asked)` equals
that common length except in the questioning phase with a pending
question, where it exceeds it by exactly one; and
`current_question_index <= total_questions`. -/
theorem c6_invariant_amended (svc : AIService) (s : InterviewState)
    (h : Reachable svc s) :
    s.userResponses.length = s.evaluations.length ∧
    (s.questionsAsked.length = s.userResponses.length ∨
      (s.phase = .questioning ∧
        s.questionsAsked.length = s.userResponses.length + 1)) ∧
    s.currentQuestionNumber ≤ s.totalQuestions := by
  obtain ⟨htotal, hasked, hle, hintro, hquest, hconc⟩ := reachable_inv svc s h
  refine ⟨?_, ?_, hle⟩
  · cases hph : s.phase
    · obtain ⟨hz, hresp, hevals⟩ := hintro hph
      rw [hresp, hevals]
      rfl
    · obtain ⟨a, b, c⟩ := hquest hph
      omega
    · obtain ⟨a, b, c⟩ := hconc hph
      omega
  · cases hph : s.phase
    · obtain ⟨hz, hresp, hevals⟩ := hintro hph
      left
      have h0 : s.userResponses.length = 0 := by rw [hresp]; rfl
      omega
    · obtain ⟨a, b, c⟩ := hquest hph
      right
      exact ⟨rfl, by omega⟩
    · obtain ⟨a, b, c⟩ := hconc hph
      left
      omega

/-- Witness for C6 (amended) at the fresh three-question session. -/
theorem c6_invariant_amended_witness :
    (initState 3).userResponses.length = (initState 3).evaluations.length ∧
    (initState 3).currentQuestionNumber ≤ (initState 3).totalQuestions := by
  have h := c6_invariant_amended stubService (initState 3)
    (Reachable.init 3 (by norm_num))
  exact ⟨h.1, h.2.2⟩

/-- C7: along any sequence of `process_user_input` calls the phase rank
never decreases, and once the phase is the conclusion it stays there. -/
theorem c7_phase_monotone (svc : AIService) (s : InterviewState)
    (inputs : List String) :
    phaseRank s.phase ≤ phaseRank (runState svc s inputs).phase ∧
    (s.phase = .conclusion → (runState svc s inputs).phase = .conclusion) := by
  induction inputs generalizing s with
  | nil => exact ⟨le_refl _, fun h => h⟩
  | cons a rest ih =>
      rw [runState_cons]
      obtain ⟨hstep1, hstep2⟩ := step_phase svc s a
      obtain ⟨hrest1, hrest2⟩ := ih (process_user_input svc s a).state
      exact ⟨le_trans hstep1 hrest1, fun h => hrest2 (hstep2 h)⟩

/-- Witness for C7 on concrete runs, including one that starts in the
conclusion phase. -/
theorem c7_phase_monotone_witness :
    phaseRank (initState 3).phase ≤
      phaseRank (runState stubService (initState 3) ["ready", "a1"]).phase ∧
    (runState stubService (runState stubService (initState 1) ["ready", "a"])
        ["x"]).phase = .conclusion := by
  refine ⟨(c7_phase_monotone stubService (initState 3) ["ready", "a1"]).1, ?_⟩
  exact (c7_phase_monotone stubService
    (runState stubService (initState 1) ["ready", "a"]) ["x"]).2 (by decide)

/-- C8: a `conclude` call in the conclusion phase leaves every field of
the session unchanged, returns the report generated from the accumulated
lists, and under the (deterministic) gateway a second call returns the
same report text. -/
theorem c8_conclude_idempotent (svc : AIService) (s : InterviewState)
    (i1 i2 : String) (hphase : s.phase = .conclusion) :
    (process_user_input svc s i1).state = s ∧
    (process_user_input svc s i1).output =
      svc.generateFinalReport s.questionsAsked s.userResponses s.evaluations ∧
    (process_user_input svc (process_user_input svc s i1).state i2).output =
      (process_user_input svc s i1).output := by
  rw [process_input_conclusion svc s i1 hphase]
  exact ⟨rfl, rfl, by rw [process_input_conclusion svc s i2 hphase]⟩

/-- Witness for C8 at a concrete completed one-question session. -/
theorem c8_conclude_idempotent_witness :
    (process_user_input stubService
        (runState stubService (initState 1) ["ready", "a"]) "x").state =
      runState stubService (initState 1) ["ready", "a"] ∧
    (process_user_input stubService
        (process_user_input stubService
          (runState stubService (initState 1) ["ready", "a"]) "x").state "y").output =
      (process_user_input stubService
        (runState stubService (initState 1) ["ready", "a"]) "x").output := by
  have h := c8_conclude_idempotent stubService
    (runState stubService (initState 1) ["ready", "a"]) "x" "y" (by decide)
  exact ⟨h.1, h.2.2⟩

/-- Witness for C4 (amended) at a failing capability and an empty payload. -/
theorem c4_scores_amended_witness :
    scoresWithinRange (evaluate_answer .failure "short answer") ∧
    getKey (evaluate_answer (.success []) "short answer") "overall_score" =
      some (Json.num 5) := by
  constructor
  · exact (c4_scores_amended .failure "short answer").2.1 rfl
  · exact ((c4_scores_amended (.success []) "short answer").2.2 [] rfl
      "overall_score" (by simp [scoreKeys]) rfl).1

end MockInterview
